import Mathlib

set_option linter.unusedSectionVars false

/-!
Verification of the amortization engine of `src/app.py` (Bank_of_mum).

The Python engine works on floats; we embed its arithmetic exactly over a
linear ordered field `K` (instantiated at `ℚ` for executable evidence and at
`ℝ` for the transcendental parts).  `round(x, 2)` in Python produces the
correctly rounded 2-decimal value of the argument using round-half-to-even;
we model it by `round2` below.  Python exceptions (ZeroDivisionError from
float division, ValueError from `math.log` on a non-positive argument) are
modelled with `Except Unit`.  Date values are plain (year, month, day)
triples; `datetime.date` comparison is lexicographic.  Loan fields hold the
already-coerced numeric values (the source's `_coerce_float`/`_coerce_months`
map absent or malformed entries to `0.0`, so "absent" is the value `0`).
`date.today()` is passed in explicitly as a `today` parameter.
-/

/-- Calendar date, mirroring `datetime.date` (year, month, day). -/
structure Date where
  year : ℤ
  month : ℕ
  day : ℕ
deriving DecidableEq

/-- Lexicographic order on dates, as `datetime.date` compares. -/
def Date.le (a b : Date) : Prop :=
  a.year < b.year ∨ (a.year = b.year ∧
    (a.month < b.month ∨ (a.month = b.month ∧ a.day ≤ b.day)))

instance (a b : Date) : Decidable (Date.le a b) := by
  unfold Date.le; infer_instance

/-- Gregorian leap-year test, as `calendar.isleap`. -/
def isLeap (y : ℤ) : Bool :=
  y % 4 = 0 && (y % 100 ≠ 0 || y % 400 = 0)

/-- Number of days of month `m` of year `y`, as `calendar.monthrange(y, m)[1]`. -/
def daysInMonth (y : ℤ) (m : ℕ) : ℕ :=
  if m = 2 then (if isLeap y then 29 else 28)
  else if m = 4 ∨ m = 6 ∨ m = 9 ∨ m = 11 then 30
  else 31

/-- `_add_months` from the source: advance `start` by `months` calendar
months, clamping the day of month down to the last valid day of the target
month.  (`//` and `%` in the source act on non-negative values here, so `ℕ`
division and remainder are the right model.) -/
def add_months (start : Date) (months : ℕ) : Date :=
  let m0 : ℕ := start.month - 1 + months
  let year : ℤ := start.year + (m0 / 12 : ℕ)
  let month : ℕ := m0 % 12 + 1
  { year := year, month := month, day := min start.day (daysInMonth year month) }

section FieldPart

variable {K : Type} [LinearOrderedField K] [FloorRing K]

/-- Round half to even to an integer: the rounding applied by CPython's
`round` to the exact value of its argument. -/
def bround (x : K) : ℤ :=
  if x - ⌊x⌋ < 1 / 2 then ⌊x⌋
  else if 1 / 2 < x - ⌊x⌋ then ⌊x⌋ + 1
  else if 2 ∣ ⌊x⌋ then ⌊x⌋ else ⌊x⌋ + 1

/-- `round(x, 2)`: round to two decimal places (half to even). -/
def round2 (x : K) : K :=
  ((bround (100 * x) : ℤ) : K) / 100

/-- A recorded payment after coercion: an optional parsed date (the source's
`_parse_iso_date` yields `None` on absent or malformed input) and an amount. -/
structure Payment (K : Type) where
  date : Option Date
  amount : K
deriving DecidableEq

/-- A loan record after numeric coercion.  Absent `months`/`payment_per_month`
are the value `0` (the source's coercions). -/
structure Loan (K : Type) where
  principal : K
  interest_rate : K
  months : K
  payment_per_month : K
  start_date : Option Date
  payments : List (Payment K)

/-- One row of the amortization schedule, as the dict built by
`generate_amortization_schedule`. -/
structure Row (K : Type) where
  number : ℕ
  date : Date
  begin_balance : K
  payment : K
  actual_payment : K
  interest : K
  principal : K
  end_balance : K
  is_final : Bool
deriving DecidableEq

/-- Period index assigned to a payment dated `pd` relative to `start`:
calendar-month difference plus one, clamped into `[1, total]`
(the body of the loop in `_group_payments_by_period`). -/
def periodIndex (start pd : Date) (total : ℕ) : ℕ :=
  let monthsDelta : ℤ := (pd.year - start.year) * 12 + ((pd.month : ℤ) - (start.month : ℤ))
  let idx : ℤ := monthsDelta + 1
  if idx < 1 then 1
  else if (total : ℤ) < idx then total
  else idx.toNat

/-- `grouped[k] = grouped.get(k, 0.0) + amount`. -/
def addToGroup (g : ℕ → Option K) (k : ℕ) (amount : K) : ℕ → Option K :=
  fun j => if j = k then some ((g k).getD 0 + amount) else g j

/-- `_group_payments_by_period`: fold the payment list into a dict from
period index to aggregated amount, skipping zero amounts; a payment with no
parseable date counts as dated at `start`. -/
def group_payments_by_period (payments : List (Payment K)) (start : Date)
    (total : ℕ) : ℕ → Option K :=
  payments.foldl
    (fun g p =>
      if p.amount = 0 then g
      else addToGroup g (periodIndex start (p.date.getD start) total) p.amount)
    (fun _ => none)

/-- `_schedule_start_date`: the loan's parsed start date, else the earliest
parseable payment date, else the first day of the current month. -/
def schedule_start_date (today : Date) (loan : Loan K) : Date :=
  match loan.start_date with
  | some d => d
  | none =>
    match loan.payments.filterMap (fun p => p.date) with
    | [] => { year := today.year, month := today.month, day := 1 }
    | d :: rest => rest.foldl (fun a b => if Date.le b a then b else a) d

/-- `monthly_rate = annual_rate / 12 / 100 if annual_rate else 0`. -/
def monthlyRate (annual_rate : K) : K :=
  if annual_rate ≠ 0 then annual_rate / 12 / 100 else 0

/-- `interest = begin_balance * monthly_rate if monthly_rate else 0.0`. -/
def periodInterest (mr b : K) : K :=
  if mr ≠ 0 then b * mr else 0

/-- The scheduled payment chosen for a period before rounding: the final
period is forced to `begin_balance + interest`; a non-final period whose
fixed payment would not cover interest (at a nonzero rate) is raised to the
interest; otherwise the fixed payment stands. -/
def scheduled_payment (mr pay : K) (total period : ℕ) (b : K) : K :=
  let i := periodInterest mr b
  if period = total then b + i
  else if mr ≠ 0 ∧ pay ≤ i then i else pay

/-- The loop body of `generate_amortization_schedule` for one period:
given the balance `b` entering the period, produce the emitted row and the
balance carried to the next period. -/
def loopBody (mr pay : K) (total : ℕ) (ppp : ℕ → Option K) (start : Date)
    (period : ℕ) (b : K) : Row K × K :=
  let interest := periodInterest mr b
  let payment_amount := scheduled_payment mr pay total period b
  let principal_component := payment_amount - interest
  let end_balance := b - principal_component
  let interest_r := round2 interest
  let payment_r := round2 payment_amount
  let principal_r := round2 principal_component
  let end_r := round2 end_balance
  let fixed :=
    if end_r < 0 then
      let p2 := round2 (payment_r + end_r)
      (p2, round2 (p2 - interest_r), (0 : K))
    else (payment_r, principal_r, end_r)
  let actual :=
    match ppp period with
    | none => fixed.1
    | some a => round2 a
  ({ number := period
     date := add_months start (period - 1)
     begin_balance := round2 b
     payment := fixed.1
     actual_payment := actual
     interest := interest_r
     principal := fixed.2.1
     end_balance := max fixed.2.2 0
     is_final := period = total },
   max fixed.2.2 0)

/-- The balance carried out of a period, independent of the ledger and the
start date (only the row's `actual_payment` and `date` depend on those). -/
def nextBalance (mr pay : K) (total period : ℕ) (b : K) : K :=
  let interest := periodInterest mr b
  let payment_amount := scheduled_payment mr pay total period b
  let end_r := round2 (b - (payment_amount - interest))
  if end_r < 0 then 0 else max end_r 0

/-- Balance entering period `period + i` when the balance entering period
`period` is `b`. -/
def iterBal (mr pay : K) (total : ℕ) : ℕ → K → ℕ → K
  | _, b, 0 => b
  | period, b, i + 1 => iterBal mr pay total (period + 1) (nextBalance mr pay total period b) i

/-- The `for period in range(1, total_periods + 1)` loop, driven by the
number of periods still to emit. -/
def scheduleAux (mr pay : K) (total : ℕ) (ppp : ℕ → Option K) (start : Date) :
    ℕ → ℕ → K → List (Row K)
  | 0, _, _ => []
  | fuel + 1, period, b =>
    (loopBody mr pay total ppp start period b).1 ::
      scheduleAux mr pay total ppp start fuel (period + 1)
        (loopBody mr pay total ppp start period b).2

end FieldPart

/-! ## The real-valued layer

`calculate_months` uses `math.log`, and `calculate_monthly_payment` uses a
real power with an arbitrary real exponent, so both live over `ℝ`.  A Python
`ZeroDivisionError` (float division by zero) or `ValueError` (`math.log` of a
non-positive argument) is an `Except.error`. -/

/-- `calculate_monthly_payment(principal, annual_rate, months)`:
the annuity payment formula `principal*r / (1 - (1+r)^-months)` with
`r = annual_rate/12/100`, or `principal/months` at rate zero. -/
noncomputable def calculate_monthly_payment (principal annual_rate months : ℝ) :
    Except Unit ℝ :=
  let r := annual_rate / 12 / 100
  if r = 0 then
    if months = 0 then .error () else .ok (principal / months)
  else if 1 - (1 + r) ^ (-months) = 0 then .error ()
  else .ok (principal * r / (1 - (1 + r) ^ (-months)))

/-- `calculate_months(principal, annual_rate, payment)`:
`ln(payment/(payment - principal*r)) / ln(1+r)` with `r = annual_rate/12/100`,
or `principal/payment` at rate zero.  The error cases are, in evaluation
order, the inner division by zero, `math.log` of a non-positive quotient, and
`math.log` of a non-positive `1 + r`. -/
noncomputable def calculate_months (principal annual_rate payment : ℝ) :
    Except Unit ℝ :=
  let r := annual_rate / 12 / 100
  if r = 0 then
    if payment = 0 then .error () else .ok (principal / payment)
  else if payment - principal * r = 0 then .error ()
  else if payment / (payment - principal * r) ≤ 0 then .error ()
  else if 1 + r ≤ 0 then .error ()
  else .ok (Real.log (payment / (payment - principal * r)) / Real.log (1 + r))

/-- `_resolve_loan_terms`: return the coerced `(principal, annual_rate,
months, payment)`, zeroing term and payment when `principal <= 0`, deriving a
missing (`<= 0`) term from a supplied payment, then a missing payment from a
positive term. -/
noncomputable def resolve_loan_terms (loan : Loan ℝ) :
    Except Unit (ℝ × ℝ × ℝ × ℝ) :=
  if loan.principal ≤ 0 then .ok (loan.principal, loan.interest_rate, 0, 0)
  else
    let step1 : Except Unit ℝ :=
      if loan.months ≤ 0 ∧ 0 < loan.payment_per_month then
        calculate_months loan.principal loan.interest_rate loan.payment_per_month
      else .ok loan.months
    match step1 with
    | .error e => .error e
    | .ok months =>
      let step2 : Except Unit ℝ :=
        if loan.payment_per_month ≤ 0 ∧ 0 < months then
          calculate_monthly_payment loan.principal loan.interest_rate months
        else .ok loan.payment_per_month
      match step2 with
      | .error e => .error e
      | .ok payment => .ok (loan.principal, loan.interest_rate, months, payment)

/-- `generate_amortization_schedule`: resolve the loan terms, return `[]`
when principal, resolved term, or resolved payment is not positive, and
otherwise emit one row per period `1..max(ceil(months), 1)`. -/
noncomputable def generate_amortization_schedule (today : Date) (loan : Loan ℝ) :
    Except Unit (List (Row ℝ)) :=
  match resolve_loan_terms loan with
  | .error e => .error e
  | .ok (principal, annual_rate, months, payment) =>
    if principal ≤ 0 ∨ months ≤ 0 ∨ payment ≤ 0 then .ok []
    else
      let monthly_rate := monthlyRate annual_rate
      let start_date := schedule_start_date today loan
      let total_periods := (max ⌈months⌉ 1).toNat
      let ppp := group_payments_by_period loan.payments start_date total_periods
      .ok (scheduleAux monthly_rate payment total_periods ppp start_date
        total_periods 1 principal)

/-- The term/payment resolution performed by the `add_loan` route when a loan
is created: inputs `<= 0` are treated as absent, a missing payment is derived
from the term, a missing term from the payment, both default to
`term = 12` with the derived payment, and the results are rounded to two
decimals before being stored. -/
noncomputable def add_loan_terms (principal rate : ℝ)
    (months_value payment_value : Option ℝ) : Except Unit (Option ℝ × Option ℝ) :=
  let months : Option ℝ :=
    match months_value with
    | some m => if m ≤ 0 then none else some m
    | none => none
  let payment : Option ℝ :=
    match payment_value with
    | some p => if p ≤ 0 then none else some p
    | none => none
  match months, payment with
  | some m, none =>
    match calculate_monthly_payment principal rate m with
    | .error e => .error e
    | .ok p => .ok (some (round2 m), some (round2 p))
  | none, some p =>
    match calculate_months principal rate p with
    | .error e => .error e
    | .ok m => .ok (some (round2 m), some (round2 p))
  | none, none =>
    match calculate_monthly_payment principal rate 12 with
    | .error e => .error e
    | .ok p => .ok (some (round2 (12 : ℝ)), some (round2 p))
  | some m, some p => .ok (some (round2 m), some (round2 p))

/-! ## Auxiliary definitions used by the verification -/

section GridDef

variable {K : Type} [LinearOrderedField K]

/-- Being a whole number of cents: the 2-decimal grid that every rounded
quantity lives on. -/
def IsCent (x : K) : Prop := ∃ n : ℤ, x = (n : K) / 100

/-- The ledger normalization described by the specification: a payment with
nonzero amount is assigned the period index `monthsDelta + 1` clamped into
`[1, total]` with `min`/`max`, and the amounts landing in the same period
are summed; zero amounts are ignored. -/
def groupSpec [DecidableEq K] (payments : List (Payment K)) (start : Date)
    (total : ℕ) (k : ℕ) : Option K :=
  let hits := payments.filter (fun p =>
    decide (p.amount ≠ 0) &&
      decide ((max 1 (min (total : ℤ)
        ((((p.date.getD start).year - start.year) * 12 +
          (((p.date.getD start).month : ℤ) - (start.month : ℤ))) + 1))).toNat = k))
  if hits.isEmpty then none else some ((hits.map (fun p => p.amount)).sum)

end GridDef

/-- A successfully generated schedule, as a plain list. -/
noncomputable def rowsOf (today : Date) (loan : Loan ℝ) : List (Row ℝ) :=
  match generate_amortization_schedule today loan with
  | .ok rows => rows
  | .error _ => []

/-- A fixed calendar date used by the concrete instances below. -/
def sampleDate : Date := { year := 2024, month := 1, day := 15 }

/-- Concrete loan: 1200 at 0%, 2 months, 100 per month. -/
noncomputable def claim1Loan : Loan ℝ :=
  { principal := 1200, interest_rate := 0, months := 2, payment_per_month := 100
    start_date := some sampleDate, payments := [] }

/-- Concrete loan of spec scenario 5: 100 at 50% with fixed payment 1 and no
term; the payment never covers interest. -/
noncomputable def claim2Loan : Loan ℝ :=
  { principal := 100, interest_rate := 50, months := 0, payment_per_month := 1
    start_date := some sampleDate, payments := [] }

/-- Concrete loan with both term and payment absent. -/
noncomputable def claim3Loan : Loan ℝ :=
  { principal := 1000, interest_rate := 12, months := 0, payment_per_month := 0
    start_date := some sampleDate, payments := [] }

/-- Concrete loan: 1000 at 12%, 2 months, fixed payment 600 (which differs
from the final balloon payment). -/
noncomputable def claim4Loan : Loan ℝ :=
  { principal := 1000, interest_rate := 12, months := 2, payment_per_month := 600
    start_date := some sampleDate, payments := [] }

/-- Concrete loan with an off-cent principal of 0.004 at 1530% yearly
(monthly rate 1.275), 2 months, fixed payment 0.0149: period 1 triggers the
rounding-artefact correction and stores principal component -0.01. -/
noncomputable def claim5Loan : Loan ℝ :=
  { principal := 1 / 250, interest_rate := 1530, months := 2
    payment_per_month := 149 / 10000
    start_date := some sampleDate, payments := [] }

/-- Concrete loan with a whole-cent principal. -/
noncomputable def claim5GridLoan : Loan ℝ :=
  { principal := 1200, interest_rate := 60, months := 3, payment_per_month := 450
    start_date := some sampleDate, payments := [] }

/-- Concrete loan with negative principal. -/
noncomputable def claim6Loan : Loan ℝ :=
  { principal := -5, interest_rate := 3, months := 12, payment_per_month := 0
    start_date := none, payments := [] }

/-- Concrete loan: 1200 at 0%, 3 months, 100 per month. -/
noncomputable def claim7Loan : Loan ℝ :=
  { principal := 1200, interest_rate := 0, months := 3, payment_per_month := 100
    start_date := some sampleDate, payments := [] }

/-- Concrete rational payment ledger: two April payments and one zero-amount
entry without a date. -/
def claim8Payments : List (Payment ℚ) :=
  [ { date := some { year := 2024, month := 4, day := 20 }, amount := 200 }
  , { date := some { year := 2024, month := 4, day := 2 }, amount := 50 }
  , { date := none, amount := 0 } ]

/-- Start date for the ledger instance. -/
def claim8Start : Date := { year := 2024, month := 1, day := 10 }

/-- Concrete loan whose start date is Jan 31, 2024, so that month-end
clamping is exercised (the second period lands on Feb 29, 2024). -/
noncomputable def claim10Loan : Loan ℝ :=
  { principal := 500, interest_rate := 10, months := 4, payment_per_month := 200
    start_date := some { year := 2024, month := 1, day := 31 }, payments := [] }

/-! ## Basic facts about `round2` -/

section Round2Facts

variable {K : Type} [LinearOrderedField K] [FloorRing K]

theorem bround_le (x : K) : bround x ≤ ⌊x⌋ + 1 := by
  unfold bround
  split_ifs <;> omega

theorem le_bround (x : K) : ⌊x⌋ ≤ bround x := by
  unfold bround
  split_ifs <;> omega

theorem bround_intCast (n : ℤ) : bround ((n : ℤ) : K) = n := by
  unfold bround
  rw [Int.floor_intCast]
  simp

theorem abs_bround_sub_le (x : K) : |((bround x : ℤ) : K) - x| ≤ 1 / 2 := by
  have hf0 : (0 : K) ≤ x - ⌊x⌋ := by
    have := Int.floor_le x; linarith
  have hf1 : x - ⌊x⌋ < 1 := by
    have := Int.lt_floor_add_one x; push_cast at this ⊢; linarith
  unfold bround
  split_ifs with h1 h2 h3
  · rw [abs_le]; constructor <;> linarith
  · rw [abs_le]; push_cast; constructor <;> linarith
  · have hx : x - ⌊x⌋ = 1 / 2 := le_antisymm (not_lt.mp h2) (not_lt.mp h1)
    rw [abs_le]; constructor <;> linarith
  · have hx : x - ⌊x⌋ = 1 / 2 := le_antisymm (not_lt.mp h2) (not_lt.mp h1)
    rw [abs_le]; push_cast; constructor <;> linarith

theorem bround_nonneg {x : K} (hx : 0 ≤ x) : 0 ≤ bround x := by
  have h := le_bround x
  have : (0 : ℤ) ≤ ⌊x⌋ := Int.floor_nonneg.mpr hx
  omega

theorem bround_neg (x : K) : bround (-x) = -bround x := by
  rcases eq_or_ne (Int.fract x) 0 with hf | hf
  · obtain ⟨n, rfl⟩ : ∃ n : ℤ, x = (n : K) := by
      refine ⟨⌊x⌋, ?_⟩
      have := Int.self_sub_fract x
      rw [hf] at this; linarith
    rw [show (-(n : K)) = ((-n : ℤ) : K) by push_cast; ring,
      bround_intCast, bround_intCast]
  · have hfr0 : 0 < Int.fract x := lt_of_le_of_ne (Int.fract_nonneg x) (Ne.symm hf)
    have hfr1 : Int.fract x < 1 := Int.fract_lt_one x
    have hxfl : x - ⌊x⌋ = Int.fract x := Int.self_sub_floor x
    have hfneg : Int.fract (-x) = 1 - Int.fract x := Int.fract_neg hf
    have hfl : ⌊-x⌋ = -⌊x⌋ - 1 := by
      have e1 : ((⌊-x⌋ : ℤ) : K) = -x - Int.fract (-x) := by
        have := Int.self_sub_fract (-x); linarith
      rw [hfneg] at e1
      have e2 : ((⌊-x⌋ : ℤ) : K) = ((-⌊x⌋ - 1 : ℤ) : K) := by
        push_cast; linarith
      exact_mod_cast e2
    have hnx : -x - (⌊-x⌋ : K) = 1 - Int.fract x := by
      rw [hfl]; push_cast; linarith
    unfold bround
    rw [hnx, hxfl, hfl]
    have htri : Int.fract x < 1 / 2 ∨ Int.fract x = 1 / 2 ∨ 1 / 2 < Int.fract x :=
      lt_trichotomy _ _
    split_ifs <;>
      first
        | omega
        | (exfalso; rcases htri with h | h | h <;> linarith)

theorem round2_zero : round2 (0 : K) = 0 := by
  unfold round2
  rw [mul_zero, show ((0 : K) = ((0 : ℤ) : K)) by norm_num, bround_intCast]
  norm_num

theorem round2_nonneg {x : K} (hx : 0 ≤ x) : 0 ≤ round2 x := by
  unfold round2
  have := bround_nonneg (x := 100 * x) (by positivity)
  positivity

theorem round2_neg (x : K) : round2 (-x) = -round2 x := by
  unfold round2
  rw [show (100 : K) * -x = -(100 * x) by ring, bround_neg]
  push_cast
  ring

theorem abs_round2_sub_le (x : K) : |round2 x - x| ≤ 1 / 200 := by
  have h := abs_bround_sub_le (100 * x)
  unfold round2
  have h100 : |((bround (100 * x) : ℤ) : K) / 100 - x|
      = |((bround (100 * x) : ℤ) : K) - 100 * x| / 100 := by
    rw [← abs_of_pos (show (0 : K) < 100 by norm_num), ← abs_div]
    congr 1
    field_simp
  rw [h100]
  rw [div_le_div_iff (by norm_num) (by norm_num)]
  nlinarith [abs_nonneg (((bround (100 * x) : ℤ) : K) - 100 * x)]

theorem isCent_round2 (x : K) : IsCent (round2 x) := ⟨bround (100 * x), rfl⟩

theorem isCent_zero : IsCent (0 : K) := ⟨0, by norm_num⟩

theorem IsCent.add {x y : K} (hx : IsCent x) (hy : IsCent y) : IsCent (x + y) := by
  obtain ⟨n, rfl⟩ := hx; obtain ⟨m, rfl⟩ := hy
  exact ⟨n + m, by push_cast; ring⟩

theorem IsCent.sub {x y : K} (hx : IsCent x) (hy : IsCent y) : IsCent (x - y) := by
  obtain ⟨n, rfl⟩ := hx; obtain ⟨m, rfl⟩ := hy
  exact ⟨n - m, by push_cast; ring⟩

theorem IsCent.max_zero {x : K} (hx : IsCent x) : IsCent (max x 0) := by
  rcases le_total x 0 with h | h
  · rw [max_eq_right h]; exact isCent_zero
  · rw [max_eq_left h]; exact hx

theorem round2_isCent {x : K} (hx : IsCent x) : round2 x = x := by
  obtain ⟨n, rfl⟩ := hx
  unfold round2
  rw [show (100 : K) * ((n : K) / 100) = ((n : ℤ) : K) by push_cast; field_simp,
    bround_intCast]

/-- A cent-grid value strictly above `-2/100` is at least `-1/100`. -/
theorem IsCent.neg_one_hundredth_le {x : K} (hx : IsCent x)
    (h : -(2 : K) / 100 < x) : -(1 : K) / 100 ≤ x := by
  obtain ⟨n, rfl⟩ := hx
  have h2 : ((-2 : ℤ) : K) < (n : K) := by push_cast; linarith
  have h2' : (-2 : ℤ) < n := by exact_mod_cast h2
  have h1' : ((-1 : ℤ) : K) ≤ (n : K) := by exact_mod_cast (by omega : (-1 : ℤ) ≤ n)
  push_cast at h1'
  linarith

/-- A positive cent-grid value is at least one cent. -/
theorem IsCent.one_hundredth_le {x : K} (hx : IsCent x) (h : 0 < x) :
    (1 : K) / 100 ≤ x := by
  obtain ⟨n, rfl⟩ := hx
  have h0 : ((0 : ℤ) : K) < (n : K) := by push_cast; linarith
  have h0' : (0 : ℤ) < n := by exact_mod_cast h0
  have h1' : ((1 : ℤ) : K) ≤ (n : K) := by exact_mod_cast (by omega : (1 : ℤ) ≤ n)
  push_cast at h1'
  linarith

/-- A cent-grid value at least `-1/200` is non-negative. -/
theorem IsCent.nonneg_of_close {x : K} (hx : IsCent x)
    (h : -(1 : K) / 200 ≤ x) : 0 ≤ x := by
  obtain ⟨n, rfl⟩ := hx
  have h2 : ((-1 : ℤ) : K) ≤ 2 * (n : K) := by push_cast; linarith
  have h2' : (-1 : ℤ) ≤ 2 * n := by exact_mod_cast h2
  have h0' : ((0 : ℤ) : K) ≤ (n : K) := by exact_mod_cast (by omega : (0 : ℤ) ≤ n)
  push_cast at h0'
  linarith

end Round2Facts

/-! ## Structure of the schedule loop -/

section LoopFacts

variable {K : Type} [LinearOrderedField K] [FloorRing K]
variable (mr pay : K) (total : ℕ) (ppp : ℕ → Option K) (start : Date)

theorem loopBody_end_eq_snd (period : ℕ) (b : K) :
    (loopBody mr pay total ppp start period b).1.end_balance =
      (loopBody mr pay total ppp start period b).2 := rfl

theorem loopBody_begin (period : ℕ) (b : K) :
    (loopBody mr pay total ppp start period b).1.begin_balance = round2 b := rfl

theorem loopBody_number (period : ℕ) (b : K) :
    (loopBody mr pay total ppp start period b).1.number = period := rfl

theorem loopBody_date (period : ℕ) (b : K) :
    (loopBody mr pay total ppp start period b).1.date =
      add_months start (period - 1) := rfl

theorem loopBody_is_final (period : ℕ) (b : K) :
    (loopBody mr pay total ppp start period b).1.is_final =
      decide (period = total) := rfl

theorem loopBody_snd_eq_nextBalance (period : ℕ) (b : K) :
    (loopBody mr pay total ppp start period b).2 =
      nextBalance mr pay total period b := by
  unfold loopBody nextBalance
  dsimp only
  split_ifs with h <;> simp

theorem loopBody_end_nonneg (period : ℕ) (b : K) :
    0 ≤ (loopBody mr pay total ppp start period b).1.end_balance :=
  le_max_right _ _

theorem nextBalance_nonneg (period : ℕ) (b : K) :
    0 ≤ nextBalance mr pay total period b := by
  unfold nextBalance
  dsimp only
  split_ifs with h
  · exact le_refl 0
  · exact le_max_right _ _

theorem nextBalance_isCent (period : ℕ) (b : K) :
    IsCent (nextBalance mr pay total period b) := by
  unfold nextBalance
  dsimp only
  split_ifs with h
  · exact isCent_zero
  · exact (isCent_round2 _).max_zero

/-- The emitted row in the final period: the scheduled payment is forced to
`begin_balance + interest`, so the raw closing balance is exactly zero and
no rounding correction fires. -/
theorem loopBody_final (period : ℕ) (b : K) (h : period = total) :
    loopBody mr pay total ppp start period b =
      ({ number := period
         date := add_months start (period - 1)
         begin_balance := round2 b
         payment := round2 (b + periodInterest mr b)
         actual_payment :=
           (match ppp period with
            | none => round2 (b + periodInterest mr b)
            | some a => round2 a)
         interest := round2 (periodInterest mr b)
         principal := round2 b
         end_balance := 0
         is_final := true }, 0) := by
  subst h
  unfold loopBody scheduled_payment
  simp only [if_pos rfl, eq_self_iff_true, if_true, add_sub_cancel_right, sub_self,
    round2_zero, lt_irrefl, if_false, max_self, decide_eq_true_eq]
  simp

theorem iterBal_zero (period : ℕ) (b : K) :
    iterBal mr pay total period b 0 = b := rfl

theorem iterBal_succ_left (period : ℕ) (b : K) (i : ℕ) :
    iterBal mr pay total period b (i + 1) =
      iterBal mr pay total (period + 1) (nextBalance mr pay total period b) i := rfl

/-- Peeling the last step of the balance iteration instead of the first. -/
theorem iterBal_succ_right (i : ℕ) :
    ∀ (period : ℕ) (b : K),
      iterBal mr pay total period b (i + 1) =
        nextBalance mr pay total (period + i) (iterBal mr pay total period b i) := by
  induction i with
  | zero => intro period b; rfl
  | succ i ih =>
    intro period b
    rw [iterBal_succ_left, ih (period + 1), iterBal_succ_left]
    congr 1
    omega

theorem iterBal_nonneg (i : ℕ) :
    ∀ (period : ℕ) (b : K), 0 ≤ b → 0 ≤ iterBal mr pay total period b i := by
  induction i with
  | zero => intro _ b hb; exact hb
  | succ i ih =>
    intro period b _
    rw [iterBal_succ_right]
    exact nextBalance_nonneg mr pay total _ _

theorem iterBal_isCent (i : ℕ) :
    ∀ (period : ℕ) (b : K), IsCent b → IsCent (iterBal mr pay total period b i) := by
  induction i with
  | zero => intro _ b hb; exact hb
  | succ i ih =>
    intro period b _
    rw [iterBal_succ_right]
    exact nextBalance_isCent mr pay total _ _

theorem scheduleAux_succ (fuel period : ℕ) (b : K) :
    scheduleAux mr pay total ppp start (fuel + 1) period b =
      (loopBody mr pay total ppp start period b).1 ::
        scheduleAux mr pay total ppp start fuel (period + 1)
          (loopBody mr pay total ppp start period b).2 := rfl

theorem scheduleAux_length (fuel : ℕ) :
    ∀ (period : ℕ) (b : K),
      (scheduleAux mr pay total ppp start fuel period b).length = fuel := by
  induction fuel with
  | zero => intro _ _; rfl
  | succ fuel ih =>
    intro period b
    unfold scheduleAux
    simp [ih]

theorem scheduleAux_ne_nil (fuel : ℕ) (period : ℕ) (b : K) (h : 0 < fuel) :
    scheduleAux mr pay total ppp start fuel period b ≠ [] := by
  intro hc
  have := scheduleAux_length mr pay total ppp start fuel period b
  rw [hc] at this
  simp at this
  omega

theorem scheduleAux_getElem? (fuel : ℕ) :
    ∀ (period : ℕ) (b : K) (i : ℕ), i < fuel →
      (scheduleAux mr pay total ppp start fuel period b)[i]? =
        some (loopBody mr pay total ppp start (period + i)
          (iterBal mr pay total period b i)).1 := by
  induction fuel with
  | zero => intro _ _ i h; omega
  | succ fuel ih =>
    intro period b i h
    match i with
    | 0 => rw [scheduleAux_succ, List.getElem?_cons_zero]; rfl
    | i + 1 =>
      have h' : i < fuel := by omega
      have := ih (period + 1) (loopBody mr pay total ppp start period b).2 i h'
      rw [scheduleAux_succ, List.getElem?_cons_succ, this,
        loopBody_snd_eq_nextBalance, iterBal_succ_left]
      congr 3
      omega

theorem scheduleAux_get (fuel : ℕ) (period : ℕ) (b : K) (i : ℕ) (h : i < fuel)
    (h2 : i < (scheduleAux mr pay total ppp start fuel period b).length) :
    (scheduleAux mr pay total ppp start fuel period b).get ⟨i, h2⟩ =
      (loopBody mr pay total ppp start (period + i)
        (iterBal mr pay total period b i)).1 := by
  have h1 := scheduleAux_getElem? mr pay total ppp start fuel period b i h
  rw [List.getElem?_eq_getElem h2] at h1
  rw [List.get_eq_getElem]
  exact Option.some_injective _ h1

theorem scheduleAux_getLast? (fuel : ℕ) :
    ∀ (period : ℕ) (b : K), 0 < fuel →
      (scheduleAux mr pay total ppp start fuel period b).getLast? =
        some (loopBody mr pay total ppp start (period + (fuel - 1))
          (iterBal mr pay total period b (fuel - 1))).1 := by
  induction fuel with
  | zero => intro _ _ h; omega
  | succ fuel ih =>
    intro period b _
    match fuel with
    | 0 => rfl
    | fuel + 1 =>
      rw [scheduleAux_succ, scheduleAux_succ, List.getLast?_cons_cons,
        ← scheduleAux_succ, ih (period + 1) _ (by omega),
        loopBody_snd_eq_nextBalance]
      have h1 : iterBal mr pay total period b (fuel + 2 - 1) =
          iterBal mr pay total (period + 1)
            (nextBalance mr pay total period b) (fuel + 1 - 1) := by
        rw [show fuel + 2 - 1 = (fuel + 1 - 1) + 1 by omega, iterBal_succ_left]
      rw [← h1]
      have e : period + 1 + (fuel + 1 - 1) = period + (fuel + 2 - 1) := by omega
      rw [e]

theorem scheduleAux_mem_end_nonneg (fuel : ℕ) :
    ∀ (period : ℕ) (b : K) (row : Row K),
      row ∈ scheduleAux mr pay total ppp start fuel period b →
        0 ≤ row.end_balance := by
  induction fuel with
  | zero => intro _ _ _ h; simp [scheduleAux] at h
  | succ fuel ih =>
    intro period b row h
    rw [scheduleAux_succ, List.mem_cons] at h
    rcases h with h | h
    · rw [h]; exact loopBody_end_nonneg mr pay total ppp start period b
    · exact ih _ _ _ h

end LoopFacts

/-! ## Unfolding `generate_amortization_schedule` on resolved loans -/

theorem totalPeriods_pos (m : ℝ) : 0 < (max ⌈m⌉ 1).toNat := by
  have := le_max_right ⌈m⌉ (1 : ℤ)
  omega

theorem generate_eq_ok (today : Date) (loan : Loan ℝ) (p r m pay : ℝ)
    (hres : resolve_loan_terms loan = .ok (p, r, m, pay))
    (hp : 0 < p) (hm : 0 < m) (hpay : 0 < pay) :
    generate_amortization_schedule today loan =
      .ok (scheduleAux (monthlyRate r) pay (max ⌈m⌉ 1).toNat
        (group_payments_by_period loan.payments
          (schedule_start_date today loan) (max ⌈m⌉ 1).toNat)
        (schedule_start_date today loan) (max ⌈m⌉ 1).toNat 1 p) := by
  unfold generate_amortization_schedule
  rw [hres]
  dsimp only
  rw [if_neg]
  push_neg
  exact ⟨hp, hm, hpay⟩

theorem generate_eq_nil (today : Date) (loan : Loan ℝ) (p r m pay : ℝ)
    (hres : resolve_loan_terms loan = .ok (p, r, m, pay))
    (h : p ≤ 0 ∨ m ≤ 0 ∨ pay ≤ 0) :
    generate_amortization_schedule today loan = .ok [] := by
  unfold generate_amortization_schedule
  rw [hres]
  dsimp only
  rw [if_pos h]

/-- Any successfully generated schedule is either empty or the loop output on
the resolved terms, with positive principal, months and payment. -/
theorem generate_cases (today : Date) (loan : Loan ℝ) (rows : List (Row ℝ))
    (hgen : generate_amortization_schedule today loan = .ok rows) :
    rows = [] ∨
      ∃ p r m pay, resolve_loan_terms loan = .ok (p, r, m, pay) ∧
        0 < p ∧ 0 < m ∧ 0 < pay ∧
        rows = scheduleAux (monthlyRate r) pay (max ⌈m⌉ 1).toNat
          (group_payments_by_period loan.payments
            (schedule_start_date today loan) (max ⌈m⌉ 1).toNat)
          (schedule_start_date today loan) (max ⌈m⌉ 1).toNat 1 p := by
  unfold generate_amortization_schedule at hgen
  rcases hres : resolve_loan_terms loan with e | quad
  · rw [hres] at hgen; dsimp only at hgen; exact absurd hgen (by simp)
  · rw [hres] at hgen
    obtain ⟨p, r, m, pay⟩ := quad
    dsimp only at hgen
    by_cases h : p ≤ 0 ∨ m ≤ 0 ∨ pay ≤ 0
    · rw [if_pos h] at hgen
      left
      simpa using hgen.symm
    · rw [if_neg h] at hgen
      push_neg at h
      right
      refine ⟨p, r, m, pay, rfl, h.1, h.2.1, h.2.2, ?_⟩
      simpa using hgen.symm

/-- On a loan whose term and payment are both supplied positive, the
resolver recomputes nothing. -/
theorem resolve_given (loan : Loan ℝ) (hp : 0 < loan.principal)
    (hm : 0 < loan.months) (hpay : 0 < loan.payment_per_month) :
    resolve_loan_terms loan =
      .ok (loan.principal, loan.interest_rate, loan.months,
        loan.payment_per_month) := by
  unfold resolve_loan_terms
  rw [if_neg (not_le.mpr hp)]
  dsimp only
  rw [if_neg (by rintro ⟨h1, _⟩; exact absurd hm (not_lt.mpr h1))]
  dsimp only
  rw [if_neg (by rintro ⟨h1, _⟩; exact absurd hpay (not_lt.mpr h1))]

/-- On a loan with non-positive principal, the resolver returns zero term
and zero payment. -/
theorem resolve_nonpos (loan : Loan ℝ) (hp : loan.principal ≤ 0) :
    resolve_loan_terms loan =
      .ok (loan.principal, loan.interest_rate, 0, 0) := by
  unfold resolve_loan_terms
  rw [if_pos hp]

/-- A non-empty generated schedule pins down the loop parameters. -/
theorem generate_ok_of_ne_nil (today : Date) (loan : Loan ℝ) (p r m pay : ℝ)
    (rows : List (Row ℝ))
    (hres : resolve_loan_terms loan = .ok (p, r, m, pay))
    (hgen : generate_amortization_schedule today loan = .ok rows)
    (hne : rows ≠ []) :
    0 < p ∧ 0 < m ∧ 0 < pay ∧
      rows = scheduleAux (monthlyRate r) pay (max ⌈m⌉ 1).toNat
        (group_payments_by_period loan.payments
          (schedule_start_date today loan) (max ⌈m⌉ 1).toNat)
        (schedule_start_date today loan) (max ⌈m⌉ 1).toNat 1 p := by
  unfold generate_amortization_schedule at hgen
  rw [hres] at hgen
  dsimp only at hgen
  by_cases h : p ≤ 0 ∨ m ≤ 0 ∨ pay ≤ 0
  · rw [if_pos h] at hgen
    exact absurd (by simpa using hgen.symm) hne
  · rw [if_neg h] at hgen
    push_neg at h
    exact ⟨h.1, h.2.1, h.2.2, by simpa using hgen.symm⟩

/-- On a fully specified healthy loan, `rowsOf` is the successful result of
the generator and is non-empty. -/
theorem rowsOf_ok (today : Date) (loan : Loan ℝ) (hp : 0 < loan.principal)
    (hm : 0 < loan.months) (hpay : 0 < loan.payment_per_month) :
    generate_amortization_schedule today loan = .ok (rowsOf today loan) ∧
      rowsOf today loan ≠ [] ∧
      (rowsOf today loan).length = (max ⌈loan.months⌉ 1).toNat := by
  have hres := resolve_given loan hp hm hpay
  have hgen0 := generate_eq_ok today loan _ _ _ _ hres hp hm hpay
  have heq : rowsOf today loan =
      scheduleAux (monthlyRate loan.interest_rate) loan.payment_per_month
        (max ⌈loan.months⌉ 1).toNat
        (group_payments_by_period loan.payments
          (schedule_start_date today loan) (max ⌈loan.months⌉ 1).toNat)
        (schedule_start_date today loan) (max ⌈loan.months⌉ 1).toNat 1
        loan.principal := by
    unfold rowsOf
    rw [hgen0]
  refine ⟨?_, ?_, ?_⟩
  · rw [heq]
    exact hgen0
  · rw [heq]
    exact scheduleAux_ne_nil _ _ _ _ _ _ _ _ (totalPeriods_pos _)
  · rw [heq]
    exact scheduleAux_length _ _ _ _ _ _ _ _

/-- Consecutive rows of the loop output chain their balances. -/
theorem scheduleAux_consecutive {K : Type} [LinearOrderedField K] [FloorRing K]
    (mr pay : K) (total : ℕ) (ppp : ℕ → Option K) (start : Date)
    (fuel period : ℕ) (b : K) (i : ℕ) (h : i + 1 < fuel)
    (h1 : i < (scheduleAux mr pay total ppp start fuel period b).length)
    (h2 : i + 1 < (scheduleAux mr pay total ppp start fuel period b).length) :
    ((scheduleAux mr pay total ppp start fuel period b).get ⟨i, h1⟩).end_balance =
      ((scheduleAux mr pay total ppp start fuel period b).get
        ⟨i + 1, h2⟩).begin_balance := by
  rw [scheduleAux_get _ _ _ _ _ _ _ _ i (by omega) h1,
    scheduleAux_get _ _ _ _ _ _ _ _ (i + 1) h h2,
    loopBody_end_eq_snd, loopBody_snd_eq_nextBalance, loopBody_begin,
    iterBal_succ_right]
  exact (round2_isCent (nextBalance_isCent _ _ _ _ _)).symm

/-! ## Claim C1 -/

/-- C1: for every loan whose generated amortization schedule is non-empty,
every row's stored closing balance is non-negative, and the final row's
closing balance is exactly 0 (the final payment is forced to
`balance + interest` so the raw closing balance is exactly zero; the
rounding correction never needs to fire there). -/
theorem claim1_amortization_closes (today : Date) (loan : Loan ℝ)
    (rows : List (Row ℝ))
    (hgen : generate_amortization_schedule today loan = .ok rows)
    (hne : rows ≠ []) :
    (∀ row ∈ rows, 0 ≤ row.end_balance) ∧
      ∀ last ∈ rows.getLast?, last.end_balance = 0 := by
  rcases generate_cases today loan rows hgen with h |
    ⟨p, r, m, pay, hres, hp, hm, hpay, hrows⟩
  · exact absurd h hne
  · subst hrows
    constructor
    · intro row hrow
      exact scheduleAux_mem_end_nonneg _ _ _ _ _ _ _ _ row hrow
    · intro last hlast
      rw [Option.mem_def,
        scheduleAux_getLast? _ _ _ _ _ _ _ _ (totalPeriods_pos m)] at hlast
      have hN : 1 + ((max ⌈m⌉ 1).toNat - 1) = (max ⌈m⌉ 1).toNat := by
        have := totalPeriods_pos m
        omega
      rw [hN, loopBody_final _ _ _ _ _ _ _ rfl] at hlast
      obtain rfl := Option.some_inj.mp hlast
      rfl

/-- Witness for C1 at a concrete loan (1200 at 0% over 2 months at 100 per
month; the final period is a balloon payment of 1100). -/
theorem claim1_witness :
    (∀ row ∈ rowsOf sampleDate claim1Loan, 0 ≤ row.end_balance) ∧
      ∀ last ∈ (rowsOf sampleDate claim1Loan).getLast?, last.end_balance = 0 := by
  have h := rowsOf_ok sampleDate claim1Loan (by norm_num [claim1Loan])
    (by norm_num [claim1Loan]) (by norm_num [claim1Loan])
  exact claim1_amortization_closes sampleDate claim1Loan _ h.1 h.2.1

/-! ## Claim C7 -/

/-- C7: in every generated schedule, the stored closing balance of each row
equals the stored opening balance of the next row (the carried balance is on
the cent grid, so the next row's rounding of it is the identity). -/
theorem claim7_balance_chain (today : Date) (loan : Loan ℝ)
    (rows : List (Row ℝ))
    (hgen : generate_amortization_schedule today loan = .ok rows) :
    ∀ i : ℕ, ∀ h : i + 1 < rows.length,
      (rows.get ⟨i, by omega⟩).end_balance =
        (rows.get ⟨i + 1, h⟩).begin_balance := by
  intro i h
  rcases generate_cases today loan rows hgen with hnil |
    ⟨p, r, m, pay, hres, hp, hm, hpay, hrows⟩
  · subst hnil
    simp at h
  · subst hrows
    have hlen := scheduleAux_length (monthlyRate r) pay (max ⌈m⌉ 1).toNat
      (group_payments_by_period loan.payments
        (schedule_start_date today loan) (max ⌈m⌉ 1).toNat)
      (schedule_start_date today loan) (max ⌈m⌉ 1).toNat 1 p
    exact scheduleAux_consecutive _ _ _ _ _ _ _ _ i (by omega) _ h

theorem claim7Rows_length : (rowsOf sampleDate claim7Loan).length = 3 := by
  have h := rowsOf_ok sampleDate claim7Loan (by norm_num [claim7Loan])
    (by norm_num [claim7Loan]) (by norm_num [claim7Loan])
  rw [h.2.2]
  norm_num [claim7Loan]
  decide

/-- Witness for C7: rows 1 and 2 of a concrete 3-row schedule chain their
balances. -/
theorem claim7_witness :
    ((rowsOf sampleDate claim7Loan).get
        ⟨0, by rw [claim7Rows_length]; norm_num⟩).end_balance =
      ((rowsOf sampleDate claim7Loan).get
        ⟨1, by rw [claim7Rows_length]; norm_num⟩).begin_balance := by
  have h := rowsOf_ok sampleDate claim7Loan (by norm_num [claim7Loan])
    (by norm_num [claim7Loan]) (by norm_num [claim7Loan])
  exact claim7_balance_chain sampleDate claim7Loan _ h.1 0
    (by rw [claim7Rows_length]; norm_num)

/-! ## Claim C6 -/

/-- C6: `generate_amortization_schedule` returns the empty list whenever the
resolved principal, term, or payment is non-positive; in particular a loan
with non-positive principal resolves to term 0 and payment 0 and produces no
rows. -/
theorem claim6_empty_schedule_guard (today : Date) (loan : Loan ℝ) :
    (∀ p r m pay : ℝ, resolve_loan_terms loan = .ok (p, r, m, pay) →
      p ≤ 0 ∨ m ≤ 0 ∨ pay ≤ 0 →
      generate_amortization_schedule today loan = .ok []) ∧
    (loan.principal ≤ 0 →
      generate_amortization_schedule today loan = .ok []) := by
  constructor
  · intro p r m pay hres h
    exact generate_eq_nil today loan p r m pay hres h
  · intro hp
    exact generate_eq_nil today loan _ _ _ _ (resolve_nonpos loan hp)
      (Or.inr (Or.inl le_rfl))

/-! ## Claim C4 -/

/-- C4: in every generated schedule, the final period's scheduled payment is
the rounding of (that period's raw opening balance plus its accrued
interest), and recomputing the final row with ANY fixed payment in place of
the resolved one yields the same scheduled payment: the balloon correction
overrides the fixed payment. -/
theorem claim4_final_balloon (today : Date) (loan : Loan ℝ) (p r m pay : ℝ)
    (rows : List (Row ℝ))
    (hres : resolve_loan_terms loan = .ok (p, r, m, pay))
    (hgen : generate_amortization_schedule today loan = .ok rows)
    (hne : rows ≠ []) :
    ∀ last ∈ rows.getLast?,
      last.payment =
        round2 (iterBal (monthlyRate r) pay (max ⌈m⌉ 1).toNat 1 p
            ((max ⌈m⌉ 1).toNat - 1) +
          periodInterest (monthlyRate r)
            (iterBal (monthlyRate r) pay (max ⌈m⌉ 1).toNat 1 p
              ((max ⌈m⌉ 1).toNat - 1))) ∧
      ∀ pay2 : ℝ,
        (loopBody (monthlyRate r) pay2 (max ⌈m⌉ 1).toNat
          (group_payments_by_period loan.payments
            (schedule_start_date today loan) (max ⌈m⌉ 1).toNat)
          (schedule_start_date today loan) (max ⌈m⌉ 1).toNat
          (iterBal (monthlyRate r) pay (max ⌈m⌉ 1).toNat 1 p
            ((max ⌈m⌉ 1).toNat - 1))).1.payment = last.payment := by
  obtain ⟨hp, hm, hpay, hrows⟩ :=
    generate_ok_of_ne_nil today loan p r m pay rows hres hgen hne
  subst hrows
  intro last hlast
  rw [Option.mem_def,
    scheduleAux_getLast? _ _ _ _ _ _ _ _ (totalPeriods_pos m)] at hlast
  have hN : 1 + ((max ⌈m⌉ 1).toNat - 1) = (max ⌈m⌉ 1).toNat := by
    have := totalPeriods_pos m
    omega
  rw [hN, loopBody_final _ _ _ _ _ _ _ rfl] at hlast
  obtain rfl := Option.some_inj.mp hlast
  refine ⟨rfl, ?_⟩
  intro pay2
  rw [loopBody_final _ _ _ _ _ _ _ rfl]

/-- Witness for C4 at a concrete loan (1000 at 12% over 2 months with fixed
payment 600). -/
theorem claim4_witness :
    rowsOf sampleDate claim4Loan ≠ [] ∧
    ∀ last ∈ (rowsOf sampleDate claim4Loan).getLast?,
      last.payment =
        round2 (iterBal (monthlyRate claim4Loan.interest_rate)
            claim4Loan.payment_per_month (max ⌈claim4Loan.months⌉ 1).toNat 1
            claim4Loan.principal ((max ⌈claim4Loan.months⌉ 1).toNat - 1) +
          periodInterest (monthlyRate claim4Loan.interest_rate)
            (iterBal (monthlyRate claim4Loan.interest_rate)
              claim4Loan.payment_per_month (max ⌈claim4Loan.months⌉ 1).toNat 1
              claim4Loan.principal ((max ⌈claim4Loan.months⌉ 1).toNat - 1))) ∧
      ∀ pay2 : ℝ,
        (loopBody (monthlyRate claim4Loan.interest_rate) pay2
          (max ⌈claim4Loan.months⌉ 1).toNat
          (group_payments_by_period claim4Loan.payments
            (schedule_start_date sampleDate claim4Loan)
            (max ⌈claim4Loan.months⌉ 1).toNat)
          (schedule_start_date sampleDate claim4Loan)
          (max ⌈claim4Loan.months⌉ 1).toNat
          (iterBal (monthlyRate claim4Loan.interest_rate)
            claim4Loan.payment_per_month (max ⌈claim4Loan.months⌉ 1).toNat 1
            claim4Loan.principal
            ((max ⌈claim4Loan.months⌉ 1).toNat - 1))).1.payment =
          last.payment := by
  have h := rowsOf_ok sampleDate claim4Loan (by norm_num [claim4Loan])
    (by norm_num [claim4Loan]) (by norm_num [claim4Loan])
  exact ⟨h.2.1, claim4_final_balloon sampleDate claim4Loan _ _ _ _ _
    (resolve_given claim4Loan (by norm_num [claim4Loan])
      (by norm_num [claim4Loan]) (by norm_num [claim4Loan]))
    h.1 h.2.1⟩

/-! ## Claim C2 -/

/-- When the payment cannot cover the interest at a positive rate,
`calculate_months` raises (ZeroDivisionError on the inner division when
`payment = principal*r`, else ValueError from `math.log` on a non-positive
quotient). -/
theorem calculate_months_unpayable (p r pay : ℝ) (hr : 0 < r) (hpay : 0 < pay)
    (hcover : pay ≤ p * (r / 12 / 100)) :
    calculate_months p r pay = .error () := by
  unfold calculate_months
  have hmr : 0 < r / 12 / 100 := by positivity
  rw [if_neg hmr.ne']
  by_cases h0 : pay - p * (r / 12 / 100) = 0
  · rw [if_pos h0]
  · rw [if_neg h0, if_pos ?_]
    have hneg : pay - p * (r / 12 / 100) < 0 :=
      lt_of_le_of_ne (by linarith) h0
    exact le_of_lt (div_neg_of_pos_of_neg hpay hneg)

/-- C2: on a loan with positive principal, positive rate, absent (non
positive) term, and a supplied fixed payment at most `principal * monthly
rate`, term resolution surfaces an error (the raised exception) instead of
returning resolved terms, so no NaN, loop, or malformed schedule can be
produced downstream. -/
theorem claim2_unpayable_detected (loan : Loan ℝ)
    (hp : 0 < loan.principal) (hr : 0 < loan.interest_rate)
    (hm : loan.months ≤ 0) (hpay : 0 < loan.payment_per_month)
    (hcover : loan.payment_per_month ≤
      loan.principal * (loan.interest_rate / 12 / 100)) :
    resolve_loan_terms loan = .error () := by
  unfold resolve_loan_terms
  rw [if_neg (not_le.mpr hp)]
  dsimp only
  rw [if_pos ⟨hm, hpay⟩,
    calculate_months_unpayable _ _ _ hr hpay hcover]

/-- Witness for C2 at spec scenario 5: principal 100, rate 50%, payment 1. -/
theorem claim2_witness : resolve_loan_terms claim2Loan = .error () :=
  claim2_unpayable_detected claim2Loan (by norm_num [claim2Loan])
    (by norm_num [claim2Loan]) (by norm_num [claim2Loan])
    (by norm_num [claim2Loan]) (by norm_num [claim2Loan])

/-! ## Claim C3 -/

/-- On a loan whose term and payment are both absent (non-positive),
`_resolve_loan_terms` recomputes nothing and returns them unchanged. -/
theorem resolve_both_absent (loan : Loan ℝ) (hp : 0 < loan.principal)
    (hm : loan.months ≤ 0) (hpay : loan.payment_per_month ≤ 0) :
    resolve_loan_terms loan =
      .ok (loan.principal, loan.interest_rate, loan.months,
        loan.payment_per_month) := by
  unfold resolve_loan_terms
  rw [if_neg (not_le.mpr hp)]
  dsimp only
  rw [if_neg (fun hc => absurd hc.2 (not_lt.mpr hpay))]
  dsimp only
  rw [if_neg (fun hc => absurd hc.2 (not_lt.mpr hm))]

/-- Counterexample to C3 as stated: on a stored loan with principal 1000,
rate 12, and both term and payment equal to 0 (absent),
`_resolve_loan_terms` does not default the term to 12. -/
theorem claim3_counterexample :
    ¬ (∀ loan : Loan ℝ, 0 < loan.principal → loan.months ≤ 0 →
        loan.payment_per_month ≤ 0 →
        ∃ pay : ℝ, resolve_loan_terms loan =
          .ok (loan.principal, loan.interest_rate, 12, pay)) := by
  intro h
  obtain ⟨pay, hres⟩ := h claim3Loan (by norm_num [claim3Loan])
    (by norm_num [claim3Loan]) (by norm_num [claim3Loan])
  rw [resolve_both_absent claim3Loan (by norm_num [claim3Loan])
    (by norm_num [claim3Loan]) (by norm_num [claim3Loan])] at hres
  simp only [Except.ok.injEq, Prod.mk.injEq, claim3Loan] at hres
  norm_num at hres

/-- The annuity payment returned by `calculate_monthly_payment` on a
positive term and non-negative rate. -/
theorem calculate_monthly_payment_pos (p r months : ℝ) (hm : 0 < months)
    (hr : 0 ≤ r) :
    calculate_monthly_payment p r months =
      .ok (if r = 0 then p / months
        else p * (r / 12 / 100) / (1 - (1 + r / 12 / 100) ^ (-months))) := by
  unfold calculate_monthly_payment
  rcases eq_or_lt_of_le hr with h0 | hpos
  · rw [← h0]
    norm_num
    exact fun hc => absurd hc hm.ne'
  · have hmr : 0 < r / 12 / 100 := by positivity
    rw [if_neg hmr.ne']
    have hlt : (1 + r / 12 / 100) ^ (-months) < 1 :=
      Real.rpow_lt_one_of_one_lt_of_neg (by linarith) (by linarith)
    rw [if_neg (by intro hc; linarith), if_neg hpos.ne']

/-- C3 amended: the 12-month default applies at loan creation (the
`add_loan` route), not in `_resolve_loan_terms`: with both term and payment
absent at creation, the stored term is 12 and the stored payment is the
annuity payment for (principal, rate, 12) rounded to two decimals. -/
theorem claim3_amended_creation_default (p r : ℝ) (hp : 0 < p) (hr : 0 ≤ r) :
    add_loan_terms p r none none =
      .ok (some 12, some (round2 (if r = 0 then p / 12
        else p * (r / 12 / 100) / (1 - (1 + r / 12 / 100) ^ (-(12 : ℝ)))))) := by
  unfold add_loan_terms
  dsimp only
  rw [calculate_monthly_payment_pos p r 12 (by norm_num) hr]
  dsimp only
  rw [round2_isCent ⟨1200, by norm_num⟩]

/-- Witness for the amended C3: principal 1200 at rate 0 stores term 12 and
payment 100. -/
theorem claim3_witness :
    add_loan_terms 1200 0 none none = .ok (some 12, some 100) := by
  rw [claim3_amended_creation_default 1200 0 (by norm_num) (by norm_num)]
  norm_num
  rw [round2_isCent ⟨10000, by norm_num⟩]

/-! ## Claim C8 -/

section Claim8

variable {K : Type} [LinearOrderedField K]

/-- The clamped index of the loop body equals the spec's `min`/`max`
clamping when there is at least one period. -/
theorem periodIndex_eq_clamp (start pd : Date) (total : ℕ) (h : 1 ≤ total) :
    periodIndex start pd total =
      (max 1 (min (total : ℤ)
        (((pd.year - start.year) * 12 +
          ((pd.month : ℤ) - (start.month : ℤ))) + 1))).toNat := by
  unfold periodIndex
  dsimp only
  split_ifs <;> omega

/-- Dict lookup after folding one payment list, for an arbitrary starting
dict. -/
theorem foldGroup_lookup (start : Date) (total : ℕ)
    (payments : List (Payment K)) :
    ∀ (g : ℕ → Option K) (k : ℕ),
      (payments.foldl
        (fun g p =>
          if p.amount = 0 then g
          else addToGroup g (periodIndex start (p.date.getD start) total)
            p.amount) g) k =
      (if (payments.filter (fun p => decide (p.amount ≠ 0) &&
            decide (periodIndex start (p.date.getD start) total = k))).isEmpty
        then g k
        else some ((g k).getD 0 +
          ((payments.filter (fun p => decide (p.amount ≠ 0) &&
            decide (periodIndex start (p.date.getD start) total = k))).map
              (fun p => p.amount)).sum)) := by
  induction payments with
  | nil => intro g k; simp
  | cons p ps ih =>
    intro g k
    rw [List.foldl_cons]
    by_cases h0 : p.amount = 0
    · rw [if_pos h0, List.filter_cons_of_neg (by simp [h0])]
      exact ih g k
    · rw [if_neg h0]
      by_cases hk : periodIndex start (p.date.getD start) total = k
      · rw [List.filter_cons_of_pos (by simp [h0, hk]),
          ih (addToGroup g _ p.amount) k]
        have hga : addToGroup g (periodIndex start (p.date.getD start) total)
            p.amount k = some ((g k).getD 0 + p.amount) := by
          unfold addToGroup
          rw [if_pos hk.symm, hk]
        by_cases he : (ps.filter (fun p => decide (p.amount ≠ 0) &&
            decide (periodIndex start (p.date.getD start) total = k))).isEmpty
        · rw [if_pos he, hga]
          have he' := List.isEmpty_iff.mp he
          rw [if_neg (by simp), he']
          simp
        · rw [if_neg he, hga, if_neg (by simp)]
          simp only [Option.getD_some, List.map_cons, List.sum_cons]
          rw [add_assoc]
      · rw [List.filter_cons_of_neg (by simp [hk]),
          ih (addToGroup g _ p.amount) k]
        have hga : addToGroup g (periodIndex start (p.date.getD start) total)
            p.amount k = g k := by
          unfold addToGroup
          rw [if_neg (fun hc2 => hk hc2.symm)]
        rw [hga]

/-- C8: for at least one period, the ledger normalizer maps each payment
with nonzero amount to the calendar-month difference plus one clamped into
`[1, total]`, sums the amounts landing in the same period, and ignores zero
amounts — i.e. it agrees with the specification-side `groupSpec`. -/
theorem claim8_ledger_grouping (payments : List (Payment K)) (start : Date)
    (total : ℕ) (htotal : 1 ≤ total) (k : ℕ) :
    group_payments_by_period payments start total k =
      groupSpec payments start total k := by
  unfold group_payments_by_period groupSpec
  rw [foldGroup_lookup start total payments (fun _ => none) k]
  dsimp only
  have hfil : payments.filter (fun p => decide (p.amount ≠ 0) &&
        decide (periodIndex start (p.date.getD start) total = k)) =
      payments.filter (fun p => decide (p.amount ≠ 0) &&
        decide ((max 1 (min (total : ℤ)
          ((((p.date.getD start).year - start.year) * 12 +
            (((p.date.getD start).month : ℤ) - (start.month : ℤ))) + 1))).toNat
          = k)) := by
    apply List.filter_congr
    intro p _
    rw [periodIndex_eq_clamp _ _ _ htotal]
  rw [hfil]
  split_ifs with he
  · rfl
  · simp

end Claim8

/-- Witness for C8 on a concrete rational ledger with 12 periods. -/
theorem claim8_witness :
    1 ≤ 12 ∧
      group_payments_by_period claim8Payments claim8Start 12 4 =
        groupSpec claim8Payments claim8Start 12 4 :=
  ⟨by norm_num,
    claim8_ledger_grouping claim8Payments claim8Start 12 (by norm_num) 4⟩

/-! ## Claim C5 -/

section Claim5Lemmas

variable {K : Type} [LinearOrderedField K] [FloorRing K]

theorem periodInterest_zero_balance (mr : K) : periodInterest mr 0 = 0 := by
  unfold periodInterest
  split_ifs <;> simp

theorem scheduled_payment_nonfinal (mr pay : K) (total period : ℕ) (b : K)
    (hper : period ≠ total) :
    scheduled_payment mr pay total period b =
      if mr ≠ 0 ∧ pay ≤ periodInterest mr b then periodInterest mr b else pay := by
  unfold scheduled_payment
  rw [if_neg hper]

/-- In a non-final period the chosen payment covers the interest, so the raw
principal component is non-negative. -/
theorem scheduled_payment_sub_interest_nonneg (mr pay : K) (total period : ℕ)
    (b : K) (hper : period ≠ total) (hpay : 0 < pay) :
    0 ≤ scheduled_payment mr pay total period b - periodInterest mr b := by
  rw [scheduled_payment_nonfinal _ _ _ _ _ hper]
  split_ifs with h
  · simp
  · push_neg at h
    by_cases hmr : mr = 0
    · have hi : periodInterest mr b = 0 := by
        unfold periodInterest
        rw [if_neg (fun hne => hne hmr)]
      rw [hi]
      linarith
    · have := h hmr
      linarith

/-- The stored principal component of a non-final row is non-negative as
long as the balance entering the period is a non-negative whole number of
cents and the fixed payment is positive. -/
theorem loopBody_principal_nonneg (mr pay : K) (total : ℕ) (ppp : ℕ → Option K)
    (start : Date) (period : ℕ) (b : K) (hper : period ≠ total)
    (hb0 : 0 ≤ b) (hbc : IsCent b) (hpay : 0 < pay) :
    0 ≤ (loopBody mr pay total ppp start period b).1.principal := by
  unfold loopBody
  dsimp only
  split_ifs with hcorr
  · -- rounding correction: the stored principal is
    -- round2 (round2 (p_r + e_r) - i_r) on the cent grid
    rw [round2_isCent ((isCent_round2 _).add (isCent_round2 _)),
      round2_isCent (((isCent_round2 _).add (isCent_round2 _)).sub
        (isCent_round2 _))]
    rcases eq_or_lt_of_le hb0 with hb | hb
    · rw [← hb]
      have hi0 : periodInterest mr 0 = 0 := periodInterest_zero_balance mr
      have hpa : scheduled_payment mr pay total period 0 = pay := by
        rw [scheduled_payment_nonfinal _ _ _ _ _ hper, hi0,
          if_neg (fun hc => absurd hc.2 (not_le.mpr hpay))]
      rw [hi0, hpa, round2_zero]
      have he : (0 : K) - (pay - 0) = -pay := by ring
      rw [he, round2_neg]
      simp
    · have hcent1 : (1 : K) / 100 ≤ b := hbc.one_hundredth_le hb
      have h1 := abs_round2_sub_le (scheduled_payment mr pay total period b)
      have h2 := abs_round2_sub_le (b - (scheduled_payment mr pay total period b
        - periodInterest mr b))
      have h3 := abs_round2_sub_le (periodInterest mr b)
      rw [abs_le] at h1 h2 h3
      refine IsCent.nonneg_of_close
        (((isCent_round2 _).add (isCent_round2 _)).sub (isCent_round2 _)) ?_
      linarith [h1.1, h2.1, h3.2]
  · -- no correction: the stored principal is round2 of a non-negative value
    exact round2_nonneg
      (scheduled_payment_sub_interest_nonneg mr pay total period b hper hpay)

end Claim5Lemmas

/-- Any successful resolution preserves the coerced principal and rate. -/
theorem resolve_ok_shape (loan : Loan ℝ) (p r m pay : ℝ)
    (h : resolve_loan_terms loan = .ok (p, r, m, pay)) :
    p = loan.principal ∧ r = loan.interest_rate := by
  unfold resolve_loan_terms at h
  by_cases h1 : loan.principal ≤ 0
  · rw [if_pos h1] at h
    simp only [Except.ok.injEq, Prod.mk.injEq] at h
    exact ⟨h.1.symm, h.2.1.symm⟩
  · rw [if_neg h1] at h
    dsimp only at h
    split at h
    · exact absurd h (by simp)
    · split at h
      · exact absurd h (by simp)
      · simp only [Except.ok.injEq, Prod.mk.injEq] at h
        exact ⟨h.1.symm, h.2.1.symm⟩

/-- C5 amended: (a) in any non-final period at a nonzero rate, a fixed
payment that does not exceed the accrued interest is raised to exactly the
interest, and (b) the stored principal component of every non-final row is
non-negative PROVIDED the loan's principal is a whole number of cents (the
counterexample shows (b) fails for an off-cent principal when the rounding
correction fires in period 1). -/
theorem claim5_amended_no_negative_amortization :
    (∀ (mr pay b : ℝ) (total period : ℕ), period ≠ total → mr ≠ 0 →
      pay ≤ periodInterest mr b →
      scheduled_payment mr pay total period b = periodInterest mr b) ∧
    (∀ (today : Date) (loan : Loan ℝ) (rows : List (Row ℝ)),
      generate_amortization_schedule today loan = .ok rows →
      IsCent loan.principal →
      ∀ row ∈ rows, row.is_final = false → 0 ≤ row.principal) := by
  constructor
  · intro mr pay b total period hper hmr hle
    rw [scheduled_payment_nonfinal _ _ _ _ _ hper, if_pos ⟨hmr, hle⟩]
  · intro today loan rows hgen hcent row hrow hfin
    rcases generate_cases today loan rows hgen with hnil |
      ⟨p, r, m, pay, hres, hp, hm, hpay, hrows⟩
    · subst hnil
      simp at hrow
    · subst hrows
      obtain ⟨hp_eq, _⟩ := resolve_ok_shape loan p r m pay hres
      rw [List.mem_iff_getElem] at hrow
      obtain ⟨idx, hidx, hrow_eq⟩ := hrow
      have hidx' : idx < (max ⌈m⌉ 1).toNat := by
        rwa [scheduleAux_length] at hidx
      have hget := scheduleAux_getElem? (monthlyRate r) pay
        (max ⌈m⌉ 1).toNat
        (group_payments_by_period loan.payments
          (schedule_start_date today loan) (max ⌈m⌉ 1).toNat)
        (schedule_start_date today loan) (max ⌈m⌉ 1).toNat 1 p idx hidx'
      rw [List.getElem?_eq_getElem hidx, hrow_eq] at hget
      have hrow2 := Option.some_inj.mp hget
      have hper : 1 + idx ≠ (max ⌈m⌉ 1).toNat := by
        intro hc
        rw [hrow2, loopBody_is_final, hc] at hfin
        simp at hfin
      rw [hrow2]
      exact loopBody_principal_nonneg _ _ _ _ _ _ _ hper
        (iterBal_nonneg _ _ _ idx 1 p hp.le)
        (iterBal_isCent _ _ _ idx 1 p (hp_eq ▸ hcent)) hpay

/-- Counterexample to C5 as stated: the loan with principal 0.004 at yearly
rate 1530 (monthly rate 1.275), term 2, fixed payment 0.0149 produces a
schedule whose first (non-final) row stores principal component -0.01: the
rounding-artefact correction in step 5 re-derives the principal component
from independently rounded quantities and drives it one cent negative. -/
theorem claim5_counterexample :
    ¬ (∀ (today : Date) (loan : Loan ℝ) (rows : List (Row ℝ)),
        generate_amortization_schedule today loan = .ok rows →
        ∀ row ∈ rows, row.is_final = false → 0 ≤ row.principal) := by
  intro h
  have hres := resolve_given claim5Loan (by norm_num [claim5Loan])
    (by norm_num [claim5Loan]) (by norm_num [claim5Loan])
  have hgen := generate_eq_ok sampleDate claim5Loan _ _ _ _ hres
    (by norm_num [claim5Loan]) (by norm_num [claim5Loan])
    (by norm_num [claim5Loan])
  have happ := h sampleDate claim5Loan _ hgen
  have hN : (max ⌈claim5Loan.months⌉ 1).toNat = 2 := by
    norm_num [claim5Loan]
    decide
  rw [hN] at happ
  have hget := scheduleAux_getElem? (monthlyRate claim5Loan.interest_rate)
    claim5Loan.payment_per_month 2
    (group_payments_by_period claim5Loan.payments
      (schedule_start_date sampleDate claim5Loan) 2)
    (schedule_start_date sampleDate claim5Loan) 2 1 claim5Loan.principal 0
    (by norm_num)
  have hmem := List.getElem?_mem hget
  have hfin : (loopBody (monthlyRate claim5Loan.interest_rate)
      claim5Loan.payment_per_month 2
      (group_payments_by_period claim5Loan.payments
        (schedule_start_date sampleDate claim5Loan) 2)
      (schedule_start_date sampleDate claim5Loan) (1 + 0)
      (iterBal (monthlyRate claim5Loan.interest_rate)
        claim5Loan.payment_per_month 2 1 claim5Loan.principal 0)).1.is_final
      = false := by
    rw [loopBody_is_final]
    rfl
  have hnn := happ _ hmem hfin
  have hprinc : (loopBody (monthlyRate claim5Loan.interest_rate)
      claim5Loan.payment_per_month 2
      (group_payments_by_period claim5Loan.payments
        (schedule_start_date sampleDate claim5Loan) 2)
      (schedule_start_date sampleDate claim5Loan) (1 + 0)
      (iterBal (monthlyRate claim5Loan.interest_rate)
        claim5Loan.payment_per_month 2 1 claim5Loan.principal 0)).1.principal
      = -(1 / 100) := by
    rw [iterBal_zero]
    norm_num [loopBody, scheduled_payment, periodInterest, monthlyRate,
      round2, bround, claim5Loan]
  rw [hprinc] at hnn
  norm_num at hnn

/-- Witness for the amended C5 at a whole-cent loan (1200 at 60% over 3
months at 450 per month): every non-final row has non-negative principal
component; row 1 in particular. -/
theorem claim5_witness :
    IsCent claim5GridLoan.principal ∧
      ∀ row ∈ rowsOf sampleDate claim5GridLoan, row.is_final = false →
        0 ≤ row.principal := by
  have h := rowsOf_ok sampleDate claim5GridLoan (by norm_num [claim5GridLoan])
    (by norm_num [claim5GridLoan]) (by norm_num [claim5GridLoan])
  have hcent : IsCent claim5GridLoan.principal :=
    ⟨120000, by norm_num [claim5GridLoan]⟩
  exact ⟨hcent,
    claim5_amended_no_negative_amortization.2 sampleDate claim5GridLoan _
      h.1 hcent⟩

/-! ## Claim C9 -/

/-- C9: computing the annuity payment for (P, R, T) and then the number of
months needed to pay off P at rate R with that payment recovers T to within
one period (in exact arithmetic the recovery is exact, so it is certainly
within the ceiling-rounding tolerance). -/
theorem claim9_resolver_round_trip (P R T : ℝ) (hP : 0 < P) (hR : 0 ≤ R)
    (hT : 0 < T) :
    ∃ pay months : ℝ,
      calculate_monthly_payment P R T = .ok pay ∧
      calculate_months P R pay = .ok months ∧
      |months - T| ≤ 1 := by
  rcases eq_or_lt_of_le hR with h0 | hpos
  · -- zero rate: pay = P / T and months = P / pay = T
    refine ⟨P / T, T, ?_, ?_, by simp⟩
    · rw [calculate_monthly_payment_pos P R T hT hR, if_pos h0.symm]
    · unfold calculate_months
      rw [← h0]
      dsimp only
      have hPT : P / T ≠ 0 := by positivity
      rw [if_pos (by norm_num), if_neg hPT]
      have h1 : P ≠ 0 := hP.ne'
      have h2 : T ≠ 0 := hT.ne'
      congr 1
      field_simp
  · -- positive rate: the closed forms cancel exactly
    set mr := R / 12 / 100 with hmr_def
    have hmr : 0 < mr := by rw [hmr_def]; positivity
    have hbase : (1 : ℝ) < 1 + mr := by linarith
    set x := (1 + mr) ^ (-T) with hx_def
    have hx0 : 0 < x := Real.rpow_pos_of_pos (by linarith) _
    have hx1 : x < 1 := Real.rpow_lt_one_of_one_lt_of_neg hbase (by linarith)
    have hden : 0 < 1 - x := by linarith
    set pay := P * mr / (1 - x) with hpay_def
    have hpay : 0 < pay := by
      rw [hpay_def]
      positivity
    refine ⟨pay, T, ?_, ?_, by simp⟩
    · rw [calculate_monthly_payment_pos P R T hT hR, if_neg hpos.ne']
    · have hsub : pay - P * mr = P * mr * x / (1 - x) := by
        rw [hpay_def]
        field_simp
        ring
      have hsub_pos : 0 < pay - P * mr := by
        rw [hsub]
        positivity
      have hquot : pay / (pay - P * mr) = 1 / x := by
        rw [hsub, hpay_def]
        have h1 : P ≠ 0 := hP.ne'
        have h2 : mr ≠ 0 := hmr.ne'
        have h3 : x ≠ 0 := hx0.ne'
        have h4 : (1 : ℝ) - x ≠ 0 := hden.ne'
        field_simp
      unfold calculate_months
      rw [← hmr_def, if_neg hmr.ne', if_neg hsub_pos.ne',
        if_neg (by rw [hquot]; push_neg; positivity),
        if_neg (by push_neg; linarith), hquot]
      have hlogx : Real.log x = -T * Real.log (1 + mr) := by
        rw [hx_def]
        exact Real.log_rpow (by linarith) _
      have hlogpos : 0 < Real.log (1 + mr) := Real.log_pos hbase
      rw [one_div, Real.log_inv, hlogx]
      rw [show -(-T * Real.log (1 + mr)) = T * Real.log (1 + mr) by ring,
        mul_div_cancel_right₀ _ hlogpos.ne']

/-- Witness for C9 at P = 1200, R = 0, T = 12. -/
theorem claim9_witness :
    (0 : ℝ) < 1200 ∧
      ∃ pay months : ℝ,
        calculate_monthly_payment 1200 0 12 = .ok pay ∧
        calculate_months 1200 0 pay = .ok months ∧
        |months - 12| ≤ 1 :=
  ⟨by norm_num, claim9_resolver_round_trip 1200 0 12 (by norm_num)
    (by norm_num) (by norm_num)⟩

/-! ## Claim C10 -/

/-- Advancing a date by more months never yields an earlier date. -/
theorem add_months_mono (start : Date) {i j : ℕ} (h : i ≤ j) :
    Date.le (add_months start i) (add_months start j) := by
  unfold add_months Date.le
  dsimp only
  set a := start.month - 1 + i with ha
  set b := start.month - 1 + j with hb
  have hab : a ≤ b := by omega
  by_cases hq : a / 12 = b / 12
  · by_cases hr : a % 12 = b % 12
    · have hab' : a = b := by omega
      rw [hab']
      exact Or.inr ⟨rfl, Or.inr ⟨rfl, le_refl _⟩⟩
    · refine Or.inr ⟨by rw [hq], Or.inl ?_⟩
      omega
  · left
    have : a / 12 < b / 12 := by
      have := Nat.div_le_div_right (c := 12) hab
      omega
    omega

/-- C10: every row's date is the schedule start advanced by (period - 1)
calendar months (with month-end day clamping built into `add_months`), and
row dates are nondecreasing along the schedule. -/
theorem claim10_row_dates (today : Date) (loan : Loan ℝ) (rows : List (Row ℝ))
    (hgen : generate_amortization_schedule today loan = .ok rows) :
    ∀ i : ℕ, ∀ hi : i < rows.length,
      (rows.get ⟨i, hi⟩).date =
        add_months (schedule_start_date today loan) i ∧
      ∀ j : ℕ, ∀ hj : j < rows.length, i ≤ j →
        Date.le (rows.get ⟨i, hi⟩).date (rows.get ⟨j, hj⟩).date := by
  rcases generate_cases today loan rows hgen with hnil |
    ⟨p, r, m, pay, hres, hp, hm, hpay, hrows⟩
  · subst hnil
    intro i hi
    simp at hi
  · subst hrows
    have hlen := scheduleAux_length (monthlyRate r) pay (max ⌈m⌉ 1).toNat
      (group_payments_by_period loan.payments
        (schedule_start_date today loan) (max ⌈m⌉ 1).toNat)
      (schedule_start_date today loan) (max ⌈m⌉ 1).toNat 1 p
    have hdate : ∀ k : ℕ, ∀ hk : k < (scheduleAux (monthlyRate r) pay
        (max ⌈m⌉ 1).toNat
        (group_payments_by_period loan.payments
          (schedule_start_date today loan) (max ⌈m⌉ 1).toNat)
        (schedule_start_date today loan) (max ⌈m⌉ 1).toNat 1 p).length,
        ((scheduleAux (monthlyRate r) pay (max ⌈m⌉ 1).toNat
          (group_payments_by_period loan.payments
            (schedule_start_date today loan) (max ⌈m⌉ 1).toNat)
          (schedule_start_date today loan) (max ⌈m⌉ 1).toNat 1 p).get
            ⟨k, hk⟩).date =
          add_months (schedule_start_date today loan) k := by
      intro k hk
      rw [scheduleAux_get _ _ _ _ _ _ _ _ k (by omega) hk, loopBody_date]
      congr 1
      omega
    intro i hi
    refine ⟨hdate i hi, ?_⟩
    intro j hj hij
    rw [hdate i hi, hdate j hj]
    exact add_months_mono _ hij

theorem claim10Rows_length : (rowsOf sampleDate claim10Loan).length = 4 := by
  have h := rowsOf_ok sampleDate claim10Loan (by norm_num [claim10Loan])
    (by norm_num [claim10Loan]) (by norm_num [claim10Loan])
  rw [h.2.2]
  norm_num [claim10Loan]
  decide

/-- Witness for C10: on a loan starting Jan 31, 2024, the second row's date
is the start advanced one month, and that advance clamps Jan 31 to Feb 29
(2024 is a leap year). -/
theorem claim10_witness :
    ((rowsOf sampleDate claim10Loan).get
        ⟨1, by rw [claim10Rows_length]; norm_num⟩).date =
      add_months (schedule_start_date sampleDate claim10Loan) 1 ∧
    add_months { year := 2024, month := 1, day := 31 } 1 =
      { year := 2024, month := 2, day := 29 } := by
  have h := rowsOf_ok sampleDate claim10Loan (by norm_num [claim10Loan])
    (by norm_num [claim10Loan]) (by norm_num [claim10Loan])
  refine ⟨(claim10_row_dates sampleDate claim10Loan _ h.1 1
    (by rw [claim10Rows_length]; norm_num)).1, ?_⟩
  decide

/-- Witness for C6 at a concrete loan with principal -5. -/
theorem claim6_witness :
    generate_amortization_schedule sampleDate claim6Loan = .ok [] :=
  (claim6_empty_schedule_guard sampleDate claim6Loan).2
    (by norm_num [claim6Loan])
